import Mathlib

/-!
Shallow embedding of the `snmp_ifstats_mqtt` package
(`src/snmp_ifstats_mqtt/snmp.py`, `mqtt.py`, `common.py`).

Python dicts are modelled as association lists with Python's insertion-order
semantics: an update of an existing key keeps its position and replaces its
value, a new key is appended at the end.  Python floats are modelled as `Rat`;
machine-level float rounding is irrelevant to every property proved here.
Fallible Python code (int() parse errors, bytearray range errors, TypeError on
mixed-type arithmetic) is modelled with `Except`.
-/

namespace SnmpIfstatsMqtt

/-- Lookup in an association list (Python `d[k]` / `k in d`). -/
def alookup {κ α : Type} [DecidableEq κ] : List (κ × α) → κ → Option α
  | [], _ => none
  | (k', v) :: rest, k => if k' = k then some v else alookup rest k

/-- Python `d[k] = v` on an insertion-ordered dict: replace in place or append. -/
def upsert {κ α : Type} [DecidableEq κ] : List (κ × α) → κ → α → List (κ × α)
  | [], k, v => [(k, v)]
  | (k', v') :: rest, k, v =>
      if k' = k then (k, v) :: rest else (k', v') :: upsert rest k v

instance instDecEqExceptSIM {ε α : Type} [DecidableEq ε] [DecidableEq α] :
    DecidableEq (Except ε α) := fun x y =>
  match x, y with
  | .ok a, .ok b =>
      if h : a = b then .isTrue (by rw [h])
      else .isFalse (fun hh => h (by cases hh; rfl))
  | .ok _, .error _ => .isFalse (fun hh => Except.noConfusion hh)
  | .error _, .ok _ => .isFalse (fun hh => Except.noConfusion hh)
  | .error a, .error b =>
      if h : a = b then .isTrue (by rw [h])
      else .isFalse (fun hh => h (by cases hh; rfl))

/-- Python `str.endswith(suf)`. -/
def endsW (s suf : String) : Bool :=
  List.isPrefixOf suf.data.reverse s.data.reverse

/-- Python `str.startswith(pre)`. -/
def startsW (s p : String) : Bool :=
  List.isPrefixOf p.data s.data

/-! ## FieldCodec: `camel_to_snake` (snmp.py lines 38-40)

`re.sub("(.)([A-Z][a-z]+)", r"\1_\2", name)` followed by
`re.sub("([a-z0-9])([A-Z])", r"\1_\2", name).lower()`, with `re.sub`'s
left-to-right, non-overlapping scan and greedy `[a-z]+`. -/

def isUpperA (c : Char) : Bool := 'A' ≤ c && c ≤ 'Z'

def isLowerA (c : Char) : Bool := 'a' ≤ c && c ≤ 'z'

def isDigitA (c : Char) : Bool := '0' ≤ c && c ≤ '9'

/-- First substitution, with structural fuel (the scan consumes at least one
character per step, so `fuel = length` always suffices): insert `_` between
any character and an upper-case-then-lower-case run, resuming after each
match as `re.sub` does. -/
def sub1F : Nat → List Char → List Char
  | fuel + 1, c1 :: c2 :: rest =>
      if isUpperA c2 then
        match rest with
        | c3 :: rest2 =>
            if isLowerA c3 then
              c1 :: '_' :: c2 :: c3 :: (rest2.takeWhile isLowerA ++
                sub1F fuel (rest2.dropWhile isLowerA))
            else
              c1 :: sub1F fuel (c2 :: c3 :: rest2)
        | [] => [c1, c2]
      else c1 :: sub1F fuel (c2 :: rest)
  | _, l => l

def sub1 (l : List Char) : List Char := sub1F l.length l

/-- Second substitution, same fuel discipline: insert `_` between a lower-case
letter or digit and an upper-case letter, resuming after each match. -/
def sub2F : Nat → List Char → List Char
  | fuel + 1, c1 :: c2 :: rest =>
      if (isLowerA c1 || isDigitA c1) && isUpperA c2 then
        c1 :: '_' :: c2 :: sub2F fuel rest
      else
        c1 :: sub2F fuel (c2 :: rest)
  | _, l => l

def sub2 (l : List Char) : List Char := sub2F l.length l

/-- ASCII lower-casing, the effect of Python `str.lower()` on these names. -/
def lowerA (c : Char) : Char :=
  if isUpperA c then Char.ofNat (c.toNat + 32) else c

def camel_to_snake (name : String) : String :=
  String.mk (((sub2 (sub1 name.data)).map lowerA))

/-! ## FieldCodec: `cast_value` (snmp.py lines 14-51) -/

def HEX_BYTE_FIELDS : List String := ["ifPhysAddress"]

def INTEGER_FIELD_SUFFIXES : List String :=
  ["Length", "Rate", "Delay", "Discards", "Errors", "Pkts", "QLen", "Speed",
   "Octets", "Atn", "SnrMgn", "Pwr", "UnknownProtos"]

def INTEGER_FIELDS : List String := ["ifIndex", "ifMtu"]

def IGNORE_FIELDS : List String := ["ifSpecific", "ifIndex", "ifType"]

def HIDE_IF_EMPTY : List String := ["ifSpeed", "ifLastChange", "ifPhysAddress"]

/-- A Python value as this program produces them: `str`, `int`, or the `float`
results of `/` and `/= 10.0` (modelled exactly as rationals). -/
inductive Value : Type
  | str (s : String)
  | int (i : Int)
  | rat (q : Rat)
deriving DecidableEq

/-- One digit of `bytes.hex()`: lower-case hexadecimal. -/
def hexDigit (d : Nat) : Char :=
  if d < 10 then Char.ofNat (48 + d) else Char.ofNat (87 + d)

/-- `bytearray(ord(x) for x in value).hex()` for byte-valued characters:
two lower-case hex digits per input character. -/
def hexOfChars : List Char → List Char
  | [] => []
  | c :: rest => hexDigit (c.toNat / 16) :: hexDigit (c.toNat % 16) :: hexOfChars rest

/-- Whitespace that Python's `int(str)` ignores around the digits. -/
def pySpace (c : Char) : Bool :=
  c = ' ' || c = '\t' || c = '\n' || c = '\x0d' || c = '\x0b' || c = '\x0c'

/-- After the first digit: digits with single underscores between digit groups
(CPython's base-10 integer grammar). Returns the digits, underscores removed. -/
def digRest : List Char → Option (List Char)
  | [] => some []
  | '_' :: c :: rest =>
      if isDigitA c then (digRest rest).map (c :: ·) else none
  | ['_'] => none
  | c :: rest =>
      if isDigitA c then (digRest rest).map (c :: ·) else none

def parseUDigits : List Char → Option (List Char)
  | c :: rest => if isDigitA c then (digRest rest).map (c :: ·) else none
  | [] => none

def digitsToNat (l : List Char) : Nat :=
  l.foldl (fun a c => a * 10 + (c.toNat - 48)) 0

/-- Python `int(value)` on a decimal string: strip whitespace, optional sign,
digits with optional grouping underscores; `none` models `ValueError`.
(Non-ASCII decimal digits, which CPython also accepts, do not occur here.) -/
def pyParseInt (s : String) : Option Int :=
  let l := ((s.data.dropWhile pySpace).reverse.dropWhile pySpace).reverse
  match l with
  | '+' :: rest => (parseUDigits rest).map fun d => (digitsToNat d : Int)
  | '-' :: rest => (parseUDigits rest).map fun d => -(digitsToNat d : Int)
  | _ => (parseUDigits l).map fun d => (digitsToNat d : Int)

/-- Python `value.rstrip("\x00")`. -/
def stripTrailingNul (s : String) : String :=
  String.mk ((s.data.reverse.dropWhile (· = '\x00')).reverse)

inductive CastError : Type
  /-- `ValueError` from `int(value)` on a non-numeric string. -/
  | malformedValue
  /-- `ValueError` from `bytearray` on a character above 255. -/
  | byteRange
deriving DecidableEq

/-- The condition of `cast_value`'s integer branch: the identifier ends with an
integer-denoting suffix or is one of the exact integer field names. -/
def intLike (name : String) : Bool :=
  INTEGER_FIELD_SUFFIXES.any (fun x => endsW name x) || INTEGER_FIELDS.contains name

/-- `cast_value` (snmp.py lines 43-51). -/
def cast_value (name : String) (value : String) : Except CastError Value :=
  if HEX_BYTE_FIELDS.contains name then
    if value.data.all (fun c => c.toNat ≤ 255) then
      .ok (.str (String.mk (hexOfChars value.data)))
    else .error .byteRange
  else if intLike name then
    match pyParseInt value with
    | some n => .ok (.int n)
    | none => .error .malformedValue
  else .ok (.str (stripTrailingNul value))

/-! ## Data model (common.py) -/

/-- `DataItem` (common.py lines 5-9). -/
structure DataItem : Type where
  name : String
  value : Value
  unit_of_measurement : Option String := none
deriving DecidableEq

/-- `DeviceData` (common.py lines 12-17). -/
structure DeviceData : Type where
  name : String
  unique_name : String
  present : Bool := false
  items : List DataItem := []
deriving DecidableEq

/-! ## MQTTPublisher (mqtt.py)

The broker client (`paho.mqtt.client.Client`) is external: its
`publish(topic, payload, retain)` calls are recorded as `PublishCall` values,
and a failure oracle `fails : Nat → Bool` says whether the n-th broker call
raises (Python propagates such an exception out of `publish`). -/

/-- `str(value)` as the state payload. Python prints a float as its shortest
round-trip decimal; the embedding prints exact rationals (integral ones as
Python does). No claim inspects this rendering of a non-integral float. -/
def pyStr : Value → String
  | .str s => s
  | .int i => toString i
  | .rat q => if q.den = 1 then toString q.num ++ ".0"
              else toString q.num ++ "/" ++ toString q.den

/-- The structural content of one discovery payload dict
(mqtt.py lines 63-78); `json.dumps` of it is published on `basename/config`.
Python compares these dicts structurally, which `DecidableEq` mirrors. -/
structure DiscoveryPayload : Type where
  /-- the `"~"` entry -/
  tilde : String
  /-- `device.name` -/
  device_name : String
  /-- `device.identifiers` -/
  device_identifiers : String
  name : String
  unique_id : String
  /-- `availability[0].topic` -/
  avail_topic : String
  payload_available : String
  payload_not_available : String
  state_topic : String
  /-- present exactly when `edata.unit_of_measurement` is truthy -/
  unit_of_measurement : Option String
deriving DecidableEq

inductive MsgPayload : Type
  | json (p : DiscoveryPayload)
  | text (s : String)
deriving DecidableEq

/-- One `mqtt_client.publish(topic, payload, retain)` call. -/
structure PublishCall : Type where
  topic : String
  payload : MsgPayload
  retain : Bool
deriving DecidableEq

/-- The publisher's mutable state (mqtt.py lines 22-38): `discovery_prefix`
(`discoveryPre` here), the instance id `temp_id`, the queue and the
discovery-payload cache. -/
structure MQTTState : Type where
  /-- `discovery_prefix` in the source -/
  discoveryPre : String
  temp_id : String
  queue : List DeviceData
  discovery_data : List (String × DiscoveryPayload)
deriving DecidableEq

/-- `id_hash if id_hash else str(uuid.uuid4())` (mqtt.py line 27): the fresh
`uuid.uuid4()` value is an input of the embedding. An empty `id_hash` is
falsy in Python and also falls back to the random uuid. -/
def temp_id (id_hash : Option String) (freshUuid : String) : String :=
  match id_hash with
  | some h => if h = "" then freshUuid else h
  | none => freshUuid

/-- `availability_topic` (mqtt.py lines 40-42). -/
def availability_topic (pre tid : String) : String :=
  pre ++ "/_meta/" ++ tid ++ "/status"

/-- `"/".join([prefix, "sensor", "snmp_ifstats", unique_name + "-" + name])`
(mqtt.py lines 55-62). -/
def basename (pre : String) (dev : DeviceData) (it : DataItem) : String :=
  pre ++ "/sensor/snmp_ifstats/" ++ (dev.unique_name ++ "-" ++ it.name)

/-- The discovery payload built per item (mqtt.py lines 63-78). The
`unit_of_measurement` entry is added only when truthy (non-empty). -/
def mkDiscovery (bn availT : String) (dev : DeviceData) (it : DataItem) :
    DiscoveryPayload where
  tilde := bn
  device_name := dev.name
  device_identifiers := dev.unique_name
  name := dev.name ++ " " ++ it.name
  unique_id := dev.unique_name ++ "-" ++ it.name
  avail_topic := availT
  payload_available := "online"
  payload_not_available := "offline"
  state_topic := "~/state"
  unit_of_measurement :=
    match it.unit_of_measurement with
    | some u => if u = "" then none else some u
    | none => none

/-- Result of a (partial) run of `MQTTPublisher.publish`'s loop body. -/
structure PubRes : Type where
  /-- next broker-call index for the failure oracle -/
  idx : Nat
  /-- `self.discovery_data` after the run -/
  dd : List (String × DiscoveryPayload)
  /-- broker calls that completed, in order -/
  calls : List PublishCall
  /-- `false` when a broker call raised and the loop aborted -/
  ok : Bool
deriving DecidableEq

/-- The body of the inner loop of `publish` for one `DataItem`
(mqtt.py lines 54-91): conditional retained config publish (cache updated
only after the call returns), then unconditional non-retained state publish. -/
def publishItem (fails : Nat → Bool) (pre availT : String) (dev : DeviceData)
    (it : DataItem) (idx : Nat) (dd : List (String × DiscoveryPayload)) :
    PubRes :=
  let bn := basename pre dev it
  let payload := mkDiscovery bn availT dev it
  let needCfg : Bool :=
    match alookup dd bn with
    | none => true
    | some p => if p = payload then false else true
  if needCfg then
    if fails idx then ⟨idx + 1, dd, [], false⟩
    else
      let dd2 := upsert dd bn payload
      let cfgCall : PublishCall := ⟨bn ++ "/config", .json payload, true⟩
      if fails (idx + 1) then ⟨idx + 2, dd2, [cfgCall], false⟩
      else ⟨idx + 2, dd2,
        [cfgCall, ⟨bn ++ "/state", .text (pyStr it.value), false⟩], true⟩
  else
    if fails idx then ⟨idx + 1, dd, [], false⟩
    else ⟨idx + 1, dd, [⟨bn ++ "/state", .text (pyStr it.value), false⟩], true⟩

/-- The inner loop of `publish` over `ddata.items`; an exception aborts it. -/
def publishItems (fails : Nat → Bool) (pre availT : String) (dev : DeviceData) :
    List DataItem → Nat → List (String × DiscoveryPayload) → PubRes
  | [], idx, dd => ⟨idx, dd, [], true⟩
  | it :: rest, idx, dd =>
      let r1 := publishItem fails pre availT dev it idx dd
      if r1.ok then
        let r2 := publishItems fails pre availT dev rest r1.idx r1.dd
        ⟨r2.idx, r2.dd, r1.calls ++ r2.calls, r2.ok⟩
      else r1

/-- The outer loop of `publish` over `self.queue`. -/
def publishQueue (fails : Nat → Bool) (pre availT : String) :
    List DeviceData → Nat → List (String × DiscoveryPayload) → PubRes
  | [], idx, dd => ⟨idx, dd, [], true⟩
  | dev :: rest, idx, dd =>
      let r1 := publishItems fails pre availT dev dev.items idx dd
      if r1.ok then
        let r2 := publishQueue fails pre availT rest r1.idx r1.dd
        ⟨r2.idx, r2.dd, r1.calls ++ r2.calls, r2.ok⟩
      else r1

/-- Outcome of one `MQTTPublisher.publish()` call. -/
structure PublishOutcome : Type where
  state : MQTTState
  calls : List PublishCall
  /-- `true` when a broker publish call raised and the exception propagated -/
  raised : Bool
deriving DecidableEq

/-- `MQTTPublisher.publish` (mqtt.py lines 47-93): run the loop; only when it
completes does `del self.queue[:]` run, so a raise leaves the whole queue
(discovery-cache updates made before the raise persist on the object). -/
def publish (fails : Nat → Bool) (st : MQTTState) : PublishOutcome :=
  let availT := availability_topic st.discoveryPre st.temp_id
  let r := publishQueue fails st.discoveryPre availT st.queue 0 st.discovery_data
  if r.ok then
    ⟨{ st with discovery_data := r.dd, queue := [] }, r.calls, false⟩
  else
    ⟨{ st with discovery_data := r.dd }, r.calls, true⟩

/-- The all-calls-succeed oracle. -/
def neverFail : Nat → Bool := fun _ => false

/-! ## SNMPConnection (snmp.py)

The easysnmp session is external: `poll` here consumes the already-walked
sequence of SNMP variables (the chained walks of the interface and ADSL
subtrees) plus the current time `time.time()` as a rational. -/

/-- One result of `session.walk`: easysnmp's `SNMPVariable` as `poll` reads
it (`oid` is the field identifier, e.g. `"ifDescr"`). -/
structure WalkValue : Type where
  oid : String
  oid_index : String
  snmp_type : String
  value : String
deriving DecidableEq

/-- `DataPoint` (snmp.py lines 54-57): `data` is the integer counter sample. -/
structure DataPoint : Type where
  time : Rat
  data : Int
deriving DecidableEq

/-- Errors a `poll` call can raise. -/
inductive PollError : Type
  /-- a `cast_value` failure (`ValueError`), propagated out of `poll` -/
  | castError (e : CastError)
  /-- Python `TypeError` on mixed-type arithmetic or concatenation
      (statically unreachable for values this program produces) -/
  | typeError
  /-- Python `KeyError` (statically unreachable after the `ifDescr` filter) -/
  | keyError
deriving DecidableEq

/-- `SNMPConnection`'s state (snmp.py lines 60-75): `include`/`exclude`
(Lean keyword, so `incl`/`excl` here), the truncated host hash `id_base`,
the optional publisher and the rate cache. -/
structure ConnState : Type where
  incl : List String
  excl : List String
  id_base : String
  publisher : Option MQTTState
  rate_cache : List ((String × String) × DataPoint)
deriving DecidableEq

/-- Grouping of walk results by `oid_index` (snmp.py lines 82-87):
`information.setdefault(value.oid_index, dict())` then `inf[value.oid] = value`,
with Python dict insertion order. -/
def buildInformation (walks : List WalkValue) :
    List (String × List (String × WalkValue)) :=
  walks.foldl (fun info w =>
    let inner := (alookup info w.oid_index).getD []
    upsert info w.oid_index (upsert inner w.oid w)) []

/-- The deletion condition of the filter loop (snmp.py lines 89-102): a record
is dropped when `ifDescr` is absent, or its type is not `OCTETSTR`, or its
value is empty (falsy), or it fails
`(not include or name in include) and (name not in exclude)`. -/
def dropRecord (incl excl : List String) (inner : List (String × WalkValue)) :
    Bool :=
  match alookup inner "ifDescr" with
  | none => true
  | some d =>
      !(d.snmp_type = "OCTETSTR" : Bool) ||
      (d.value = "" : Bool) ||
      !((incl.isEmpty || incl.contains d.value) && !(excl.contains d.value))

/-- `information_map` (snmp.py lines 104-107): re-key surviving records by
their raw `ifDescr` value and cast every field; a cast failure propagates. -/
def buildInformationMap
    (info : List (String × List (String × WalkValue))) :
    Except PollError (List (String × List (String × Value))) :=
  info.foldlM (fun acc kv => do
    match alookup kv.2 "ifDescr" with
    | none => .error .keyError
    | some d => do
        let fields ← kv.2.mapM (fun fv => do
          match cast_value fv.1 fv.2.value with
          | .ok c => pure (fv.1, c)
          | .error e => .error (PollError.castError e))
        pure (upsert acc d.value fields)) []

/-- Python truthiness of a value, for `get("ifPhysAddress", None) or ...`. -/
def pyTruthy : Value → Bool
  | .str s => !(s = "" : Bool)
  | .int i => !(i = 0 : Bool)
  | .rat q => !(q = 0 : Bool)

/-- One entry of `id_names` (snmp.py lines 109-113):
`information_map[k].get("ifPhysAddress", None) or ("_" + information_map[k]["ifDescr"])`.
The fallback concatenation requires a string `ifDescr` (else `TypeError`), and
a truthy non-string `ifPhysAddress` would fail later at the `+` building
`unique_name`; both are unreachable for cast results. -/
def idName (fields : List (String × Value)) : Except PollError String :=
  let fallback : Except PollError String :=
    match alookup fields "ifDescr" with
    | some (.str s) => .ok ("_" ++ s)
    | some _ => .error .typeError
    | none => .error .keyError
  match alookup fields "ifPhysAddress" with
  | some v => if pyTruthy v then
      match v with
      | .str s => .ok s
      | _ => .error .typeError
    else fallback
  | none => fallback

def buildIdNames (imap : List (String × List (String × Value))) :
    Except PollError (List (String × String)) :=
  imap.foldlM (fun acc kv => do
    let idn ← idName kv.2
    pure (upsert acc kv.1 idn)) []

/-- The hide test of snmp.py line 125: `value == 0 or value in ("0", "")`. -/
def hideEmptyVal : Value → Bool
  | .int i => (i = 0 : Bool)
  | .rat q => (q = 0 : Bool)
  | .str s => (s = "0" : Bool) || (s = "" : Bool)

/-- `value /= 10.0` (true division produces a float). The `str` case is
Python `TypeError`; it is unreachable because every key reaching the
divide-by-ten branches was cast to an integer by `cast_value`. -/
def vdiv10 : Value → Value
  | .int n => .rat ((n : Rat) / 10)
  | .rat q => .rat (q / 10)
  | .str s => .str s

/-- The unit-of-measurement elif chain (snmp.py lines 128-144), first match
wins, returning the unit and the (possibly scaled) value. -/
def assign_uom (key : String) (value : Value) : Option String × Value :=
  if endsW key "Octets" || endsW key "Mtu" then (some "bytes", value)
  else if endsW key "Atn" || endsW key "SnrMgn" then (some "dB", vdiv10 value)
  else if endsW key "Pwr" then (some "dBm", vdiv10 value)
  else if endsW key "Pkts" then (some "p", value)
  else if endsW key "Discards" || endsW key "Errors" then (some "count", value)
  else if startsW key "adsl" && endsW key "Rate" then (some "b/s", value)
  else if endsW key "Speed" then (some "b/s", value)
  else (none, value)

/-- The body of the per-field loop (snmp.py lines 121-163) for one
`(key, value)` pair: ignore/hide guards, unit assignment, the field's own
`DataItem`, and for `*Octets` keys the derived rate `DataItem` plus the
`new_rates` update. Returns the items appended and the updated `new_rates`.
Subtracting a cached integer from a non-integer sample would be a Python
`TypeError`; unreachable, since `*Octets` values are cast to integers. -/
def processField (cache nr : List ((String × String) × DataPoint)) (now : Rat)
    (name key : String) (value : Value) :
    Except PollError (List DataItem × List ((String × String) × DataPoint)) :=
  if IGNORE_FIELDS.contains key then .ok ([], nr)
  else if HIDE_IF_EMPTY.contains key && hideEmptyVal value then .ok ([], nr)
  else
    let uv := assign_uom key value
    let mainItem : DataItem := ⟨camel_to_snake key, uv.2, uv.1⟩
    if endsW key "Octets" then
      match uv.2 with
      | .int n =>
          let psName := camel_to_snake (key ++ "PS")
          let derived : List DataItem :=
            match alookup cache (name, key) with
            | some old =>
                if old.data ≤ n ∧ old.time < now then
                  [⟨psName, .rat (((n - old.data : Int) : Rat) / (now - old.time)),
                    some "B/s"⟩]
                else
                  [⟨psName, .str "", some "B/s"⟩]
            | none => []
          .ok ([mainItem] ++ derived, upsert nr (name, key) ⟨now, n⟩)
      | _ => .error .typeError
    else .ok ([mainItem], nr)

/-- The per-interface loop body (snmp.py lines 118-163): fold `processField`
over the interface's fields in order, threading `new_rates`. -/
def buildItems (cache : List ((String × String) × DataPoint)) (now : Rat)
    (name : String) (params : List (String × Value))
    (nr : List ((String × String) × DataPoint)) :
    Except PollError (List DataItem × List ((String × String) × DataPoint)) :=
  params.foldlM (fun acc kv => do
    let r ← processField cache acc.2 now name kv.1 kv.2
    pure (acc.1 ++ r.1, r.2)) ([], nr)

/-- The per-interface loop of the publisher block (snmp.py lines 118-172):
one `DeviceData` per interface in order, threading `new_rates` across
interfaces. -/
def buildDevices (cache : List ((String × String) × DataPoint)) (now : Rat)
    (id_base : String) (id_names : List (String × String)) :
    List (String × List (String × Value)) →
    List ((String × String) × DataPoint) →
    Except PollError (List DeviceData × List ((String × String) × DataPoint))
  | [], nr => .ok ([], nr)
  | (name, params) :: rest, nr =>
      match buildItems cache now name params nr with
      | .error e => .error e
      | .ok (items, nr2) =>
          match alookup id_names name with
          | none => .error .keyError
          | some idn =>
              match buildDevices cache now id_base id_names rest nr2 with
              | .error e => .error e
              | .ok (devs, nr3) =>
                  .ok (DeviceData.mk name (id_base ++ "-" ++ idn) true items :: devs,
                    nr3)

/-- `SNMPConnection.poll` (snmp.py lines 77-174) given the walk results and
the current time: group, filter, cast, resolve identities; then, only when a
publisher is configured, build and queue one `DeviceData` per interface and
replace the rate cache wholesale with `new_rates`. An exception propagates as
`.error` (the partially-extended publisher queue of the aborted Python call is
not observed by any property here). -/
def poll (st : ConnState) (walks : List WalkValue) (now : Rat) :
    Except PollError ConnState :=
  let information := buildInformation walks
  let kept := information.filter (fun kv => !dropRecord st.incl st.excl kv.2)
  match buildInformationMap kept with
  | .error e => .error e
  | .ok information_map =>
      match buildIdNames information_map with
      | .error e => .error e
      | .ok id_names =>
          match st.publisher with
          | none => .ok st
          | some pub =>
              match buildDevices st.rate_cache now st.id_base id_names
                  information_map [] with
              | .error e => .error e
              | .ok (devs, new_rates) =>
                  .ok { st with
                    rate_cache := new_rates,
                    publisher := some { pub with queue := pub.queue ++ devs } }

/-! ## Auxiliary observers used by the statements -/

/-- Number of broker calls on one topic among a list of calls. -/
def countTopic (calls : List PublishCall) (t : String) : Nat :=
  (calls.filter (fun c => c.topic = t)).length

/-- The expected broker-call sequence for a list of items none of whose
basenames is cached yet: one retained config publish then one state publish
per item. -/
def itemCalls (pre availT : String) (dev : DeviceData) : List DataItem → List PublishCall
  | [] => []
  | it :: rest =>
      ⟨basename pre dev it ++ "/config",
        .json (mkDiscovery (basename pre dev it) availT dev it), true⟩ ::
      ⟨basename pre dev it ++ "/state", .text (pyStr it.value), false⟩ ::
      itemCalls pre availT dev rest

/-- All broker calls of publishing the snapshot `dev` twice in a row from a
fresh publisher: queue it, publish, queue it again, publish. -/
def doubleCalls (pre tid : String) (dev : DeviceData) : List PublishCall :=
  let o1 := publish neverFail ⟨pre, tid, [dev], []⟩
  let o2 := publish neverFail { o1.state with queue := [dev] }
  o1.calls ++ o2.calls

/-- A lower-case hexadecimal digit. -/
def isHexLower (c : Char) : Bool := isDigitA c || ('a' ≤ c && c ≤ 'f')

/-! # Helper lemmas -/

theorem alookup_upsert {κ α : Type} [DecidableEq κ]
    (l : List (κ × α)) (k k' : κ) (v : α) :
    alookup (upsert l k v) k' = if k = k' then some v else alookup l k' := by
  induction l with
  | nil => by_cases h : k = k' <;> simp [upsert, alookup, h]
  | cons hd tl ih =>
      obtain ⟨k₀, v₀⟩ := hd
      by_cases h0 : k₀ = k
      · subst h0
        by_cases h1 : k₀ = k' <;> simp [upsert, alookup, h1]
      · by_cases h1 : k₀ = k'
        · subst h1
          have h2 : ¬ k = k₀ := fun h => h0 h.symm
          simp [upsert, alookup, h0, h2]
        · simp [upsert, alookup, h0, h1, ih]

theorem head_of_isPrefixOf {l m : List Char} {c : Char}
    (hp : List.isPrefixOf l m = true) (hh : l.head? = some c) :
    m.head? = some c := by
  cases l with
  | nil => simp at hh
  | cons x xs =>
      cases m with
      | nil => simp [List.isPrefixOf] at hp
      | cons y ys =>
          simp only [List.isPrefixOf, Bool.and_eq_true, beq_iff_eq] at hp
          simp only [List.head?] at hh ⊢
          rw [← hp.1]; exact hh

/-- Two suffix checks whose suffixes end in different characters cannot both
hold of one string. -/
theorem endsW_incompat {s : String} (a b : String) (ca cb : Char)
    (ha : a.data.reverse.head? = some ca) (hb : b.data.reverse.head? = some cb)
    (hne : ca ≠ cb)
    (h1 : endsW s a = true) (h2 : endsW s b = true) : False := by
  simp only [endsW] at h1 h2
  have e1 := head_of_isPrefixOf h1 ha
  have e2 := head_of_isPrefixOf h2 hb
  rw [e1] at e2
  exact hne (Option.some.inj e2)

theorem str_ext {s t : String} (h : s.data = t.data) : s = t := by
  cases s; cases t; exact congrArg String.mk h

theorem str_data_append (s t : String) : (s ++ t).data = s.data ++ t.data := by
  cases s; cases t; rfl

theorem str_append_cancel_left {s x y : String} (h : s ++ x = s ++ y) : x = y := by
  have hd := congrArg String.data h
  rw [str_data_append, str_data_append] at hd
  exact str_ext (List.append_cancel_left hd)

theorem str_append_cancel_right {x y s : String} (h : x ++ s = y ++ s) : x = y := by
  have hd := congrArg String.data h
  rw [str_data_append, str_data_append] at hd
  exact str_ext (List.append_cancel_right hd)

theorem head_append_some {l1 l2 : List Char} {c : Char}
    (h : l1.head? = some c) : (l1 ++ l2).head? = some c := by
  cases l1 with
  | nil => simp at h
  | cons a t => simpa using h

/-- Two appended strings whose right parts end in different characters are
different, whatever the left parts. -/
theorem str_append_ne_of_last {A B x y : String} {cx cy : Char}
    (hx : x.data.reverse.head? = some cx) (hy : y.data.reverse.head? = some cy)
    (hne : cx ≠ cy) : A ++ x ≠ B ++ y := by
  intro he
  have hd : (x.data.reverse ++ A.data.reverse) = (y.data.reverse ++ B.data.reverse) := by
    have : (A ++ x).data.reverse = (B ++ y).data.reverse := by rw [he]
    rwa [str_data_append, str_data_append, List.reverse_append,
      List.reverse_append] at this
  have h1 : (x.data.reverse ++ A.data.reverse).head? = some cx := head_append_some hx
  have h2 : (y.data.reverse ++ B.data.reverse).head? = some cy := head_append_some hy
  rw [hd, h2] at h1
  exact hne (Option.some.inj h1).symm

/-- The full characterization of the filter-loop deletion condition. -/
theorem dropRecord_iff (incl excl : List String)
    (inner : List (String × WalkValue)) :
    dropRecord incl excl inner = true ↔
      alookup inner "ifDescr" = none ∨
      ∃ d, alookup inner "ifDescr" = some d ∧
        (d.snmp_type ≠ "OCTETSTR" ∨ d.value = "" ∨
         (incl ≠ [] ∧ d.value ∉ incl) ∨ d.value ∈ excl) := by
  cases h : alookup inner "ifDescr" with
  | none => simp [dropRecord, h]
  | some d =>
      simp only [dropRecord, h, Bool.or_eq_true, Bool.not_eq_true',
        decide_eq_true_eq, Bool.and_eq_false_iff, Bool.or_eq_false_iff,
        Bool.not_eq_false]
      simp only [Option.some.injEq, reduceCtorEq, false_or]
      simp
      tauto

/-! # Claim theorems -/

/-- C4: an assembled record is dropped exactly when the `ifDescr` name field
is absent, or its raw protocol type is not `OCTETSTR`, or its value is empty,
or the include list is non-empty and the name is not in it, or the name is in
the exclude list; a name in the exclude list is always dropped (exclude wins
over include), and with an empty include list every non-excluded record with
a valid name passes. -/
theorem C4_interface_filtering (incl excl : List String)
    (inner : List (String × WalkValue)) :
    (dropRecord incl excl inner = true ↔
      alookup inner "ifDescr" = none ∨
      ∃ d, alookup inner "ifDescr" = some d ∧
        (d.snmp_type ≠ "OCTETSTR" ∨ d.value = "" ∨
         (incl ≠ [] ∧ d.value ∉ incl) ∨ d.value ∈ excl)) ∧
    (∀ d, alookup inner "ifDescr" = some d → d.value ∈ excl →
      dropRecord incl excl inner = true) ∧
    (∀ d, alookup inner "ifDescr" = some d → incl = [] →
      d.snmp_type = "OCTETSTR" → d.value ≠ "" → d.value ∉ excl →
      dropRecord incl excl inner = false) := by
  refine ⟨dropRecord_iff incl excl inner, ?_, ?_⟩
  · intro d hd hmem
    exact (dropRecord_iff incl excl inner).mpr
      (Or.inr ⟨d, hd, Or.inr (Or.inr (Or.inr hmem))⟩)
  · intro d hd hincl htype hval hexcl
    cases hb : dropRecord incl excl inner with
    | false => rfl
    | true =>
        exfalso
        rcases (dropRecord_iff incl excl inner).mp hb with hnone | ⟨d', hd', hc⟩
        · rw [hd] at hnone; cases hnone
        · rw [hd] at hd'
          cases Option.some.inj hd'
          rcases hc with h1 | h1 | ⟨h1, _⟩ | h1
          · exact h1 htype
          · exact hval h1
          · exact h1 hincl
          · exact hexcl h1

/-- C5 counterexample: with include = ["eth0"] and exclude = ["eth0"], a valid
record named "eth0" is dropped — the claim's "retained regardless of the
contents of the exclude list" is false (exclude wins, per the code and §4.2 of
the spec). -/
theorem C5_counterexample :
    dropRecord ["eth0"] ["eth0"]
      [("ifDescr", ⟨"ifDescr", "1", "OCTETSTR", "eth0"⟩)] = true := by decide

/-- C5 (amended): with include = [] and exclude = ["eth0"], a record named
"eth0" is dropped and every other valid record is retained; with
include = ["eth0"], every record not named "eth0" is dropped, and a valid
record named "eth0" is retained provided "eth0" is not in the exclude list
(the exclude list still wins over include). -/
theorem C5_include_exclude :
    (∀ (inner : List (String × WalkValue)) d,
      alookup inner "ifDescr" = some d → d.value = "eth0" →
      dropRecord [] ["eth0"] inner = true) ∧
    (∀ (inner : List (String × WalkValue)) d,
      alookup inner "ifDescr" = some d → d.snmp_type = "OCTETSTR" →
      d.value ≠ "" → d.value ≠ "eth0" →
      dropRecord [] ["eth0"] inner = false) ∧
    (∀ (inner : List (String × WalkValue)) d (excl : List String),
      alookup inner "ifDescr" = some d → d.value ≠ "eth0" →
      dropRecord ["eth0"] excl inner = true) ∧
    (∀ (inner : List (String × WalkValue)) d (excl : List String),
      alookup inner "ifDescr" = some d → d.snmp_type = "OCTETSTR" →
      d.value = "eth0" → "eth0" ∉ excl →
      dropRecord ["eth0"] excl inner = false) := by
  refine ⟨?_, ?_, ?_, ?_⟩
  · intro inner d hd hv
    exact (dropRecord_iff _ _ inner).mpr
      (Or.inr ⟨d, hd, Or.inr (Or.inr (Or.inr (by simp [hv])))⟩)
  · intro inner d hd htype hval hne
    cases hb : dropRecord [] ["eth0"] inner with
    | false => rfl
    | true =>
        exfalso
        rcases (dropRecord_iff _ _ inner).mp hb with hnone | ⟨d', hd', hc⟩
        · rw [hd] at hnone; cases hnone
        · rw [hd] at hd'
          cases Option.some.inj hd'
          rcases hc with h1 | h1 | ⟨h1, _⟩ | h1
          · exact h1 htype
          · exact hval h1
          · exact h1 rfl
          · simp at h1; exact hne h1
  · intro inner d excl hd hv
    refine (dropRecord_iff _ _ inner).mpr
      (Or.inr ⟨d, hd, Or.inr (Or.inr (Or.inl ⟨by simp, by simp [hv]⟩))⟩)
  · intro inner d excl hd htype hv hexcl
    cases hb : dropRecord ["eth0"] excl inner with
    | false => rfl
    | true =>
        exfalso
        rcases (dropRecord_iff _ _ inner).mp hb with hnone | ⟨d', hd', hc⟩
        · rw [hd] at hnone; cases hnone
        · rw [hd] at hd'
          cases Option.some.inj hd'
          rcases hc with h1 | h1 | ⟨_, h1⟩ | h1
          · exact h1 htype
          · rw [hv] at h1; exact absurd h1 (by decide)
          · exact h1 (by simp [hv])
          · rw [hv] at h1; exact hexcl h1

/-- C3 counterexample: with no `id_hash` argument, two publisher constructions
over the same configuration but different `uuid.uuid4()` draws produce
different availability topics — the instance id is the random uuid, not a
deterministic function of the configured device identity hashes. -/
theorem C3_counterexample :
    availability_topic "homeassistant" (temp_id none "0b1f") ≠
    availability_topic "homeassistant" (temp_id none "77aa") := by decide

/-- C3 (amended): the availability topic is
`discovery_prefix + "/_meta/" + instanceId + "/status"`, where instanceId is
the constructor's `id_hash` argument when supplied and non-empty — hence
identical across two runs given the same `id_hash` — and otherwise a freshly
drawn random uuid; nothing derives it from the device identity hashes. -/
theorem C3_availability_topic (pre h u₁ u₂ u : String) (hh : h ≠ "") :
    availability_topic pre (temp_id (some h) u₁) =
      pre ++ "/_meta/" ++ h ++ "/status" ∧
    availability_topic pre (temp_id (some h) u₁) =
      availability_topic pre (temp_id (some h) u₂) ∧
    temp_id none u = u := by
  simp [availability_topic, temp_id, hh]

theorem C3_witness :
    ("fleet0" : String) ≠ "" ∧
    (availability_topic "homeassistant" (temp_id (some "fleet0") "u1") =
        "homeassistant" ++ "/_meta/" ++ "fleet0" ++ "/status" ∧
     availability_topic "homeassistant" (temp_id (some "fleet0") "u1") =
        availability_topic "homeassistant" (temp_id (some "fleet0") "u2") ∧
     temp_id none "u3" = "u3") :=
  ⟨by decide, C3_availability_topic "homeassistant" "fleet0" "u1" "u2" "u3" (by decide)⟩

/-- Unit assignment for `Atn`/`SnrMgn` fields: the second rule fires (the
first rule's suffixes end in other characters), yielding "dB" and a division
by ten. -/
theorem assign_uom_atn (key : String) (n : Int)
    (h : endsW key "Atn" = true ∨ endsW key "SnrMgn" = true) :
    assign_uom key (.int n) = (some "dB", .rat ((n : Rat) / 10)) := by
  have hOct : endsW key "Octets" = false := by
    cases hc : endsW key "Octets" with
    | false => rfl
    | true =>
        exfalso
        rcases h with h | h
        · exact endsW_incompat "Atn" "Octets" 'n' 's' (by decide) (by decide)
            (by decide) h hc
        · exact endsW_incompat "SnrMgn" "Octets" 'n' 's' (by decide) (by decide)
            (by decide) h hc
  have hMtu : endsW key "Mtu" = false := by
    cases hc : endsW key "Mtu" with
    | false => rfl
    | true =>
        exfalso
        rcases h with h | h
        · exact endsW_incompat "Atn" "Mtu" 'n' 'u' (by decide) (by decide)
            (by decide) h hc
        · exact endsW_incompat "SnrMgn" "Mtu" 'n' 'u' (by decide) (by decide)
            (by decide) h hc
  have hA : (endsW key "Atn" || endsW key "SnrMgn") = true := by
    rcases h with h | h <;> simp [h]
  simp [assign_uom, hOct, hMtu, hA, vdiv10]

/-- C6: units are assigned by the ordered first-match-wins rule chain; every
field whose identifier ends with "Atn" or "SnrMgn" gets unit "dB" with its
value divided by 10, and in particular "adslAtucCurrAtn" gets "dB" via the
Atn rule, not the unit of the adsl-plus-Rate rule. -/
theorem C6_atn_unit_precedence (key : String) (n : Int)
    (h : endsW key "Atn" = true ∨ endsW key "SnrMgn" = true) :
    assign_uom key (.int n) = (some "dB", .rat ((n : Rat) / 10)) ∧
    assign_uom "adslAtucCurrAtn" (.int n) = (some "dB", .rat ((n : Rat) / 10)) :=
  ⟨assign_uom_atn key n h, assign_uom_atn "adslAtucCurrAtn" n (Or.inl (by decide))⟩

theorem C6_witness :
    (endsW "adslAtucChanCurrTxAtn" "Atn" = true ∨
     endsW "adslAtucChanCurrTxAtn" "SnrMgn" = true) ∧
    (assign_uom "adslAtucChanCurrTxAtn" (.int 25) =
        (some "dB", .rat (((25 : Int) : Rat) / 10)) ∧
     assign_uom "adslAtucCurrAtn" (.int 25) =
        (some "dB", .rat (((25 : Int) : Rat) / 10))) :=
  ⟨Or.inl (by decide),
   C6_atn_unit_precedence "adslAtucChanCurrTxAtn" 25 (Or.inl (by decide))⟩

theorem hexOfChars_length (l : List Char) :
    (hexOfChars l).length = 2 * l.length := by
  induction l with
  | nil => simp [hexOfChars]
  | cons c t ih =>
      simp [hexOfChars, ih]
      omega

theorem hexDigit_lower : ∀ d : Nat, d ≤ 15 → isHexLower (hexDigit d) = true := by
  decide

theorem hexOfChars_lower (l : List Char)
    (h : l.all (fun c => c.toNat ≤ 255) = true) :
    (hexOfChars l).all isHexLower = true := by
  induction l with
  | nil => rfl
  | cons c t ih =>
      simp only [List.all_cons, Bool.and_eq_true, decide_eq_true_eq] at h
      have h1 : c.toNat / 16 ≤ 15 := by omega
      have h2 : c.toNat % 16 ≤ 15 := by omega
      simp [hexOfChars, List.all_cons, hexDigit_lower _ h1, hexDigit_lower _ h2,
        ih h.2]

/-- C8: for every identifier in the hex-byte field set and every raw value of
byte-valued characters (code points 0-255), `cast_value` returns a lower-case
hexadecimal string of length twice the number of input characters. -/
theorem C8_hex_cast (name v : String)
    (h1 : HEX_BYTE_FIELDS.contains name = true)
    (h2 : v.data.all (fun c => c.toNat ≤ 255) = true) :
    cast_value name v = .ok (.str (String.mk (hexOfChars v.data))) ∧
    (String.mk (hexOfChars v.data)).length = 2 * v.length ∧
    (hexOfChars v.data).all isHexLower = true := by
  have hm : name ∈ HEX_BYTE_FIELDS := by simpa using h1
  exact ⟨by simp [cast_value, hm, h2], hexOfChars_length v.data,
    hexOfChars_lower v.data h2⟩

/-- A key ending in "Octets" is in neither the ignore list nor the
hide-if-empty list. -/
theorem octets_not_ignored (key : String) (hk : endsW key "Octets" = true) :
    IGNORE_FIELDS.contains key = false ∧ HIDE_IF_EMPTY.contains key = false := by
  constructor
  · cases hc : IGNORE_FIELDS.contains key with
    | false => rfl
    | true =>
        exfalso
        have hm : key ∈ IGNORE_FIELDS := by simpa using hc
        simp only [IGNORE_FIELDS, List.mem_cons, List.mem_singleton,
          List.not_mem_nil, or_false] at hm
        rcases hm with h | h | h <;> (subst h; exact absurd hk (by decide))
  · cases hc : HIDE_IF_EMPTY.contains key with
    | false => rfl
    | true =>
        exfalso
        have hm : key ∈ HIDE_IF_EMPTY := by simpa using hc
        simp only [HIDE_IF_EMPTY, List.mem_cons, List.mem_singleton,
          List.not_mem_nil, or_false] at hm
        rcases hm with h | h | h <;> (subst h; exact absurd hk (by decide))

/-- C1 (amended): for every field whose identifier ends in "Octets", with an
integer sample: on first sight of `(interfaceName, fieldIdentifier)` no
derived item is emitted and the cache is seeded with `(now, value)`; with a
cached entry, if `delta = value - cached ≥ 0` and `now > cachedTimestamp`, a
derived item named snake-case `fieldName + "PS"` with value `delta/elapsed`
and unit "B/s" (the code's unit string — the claim's "bytes/s" is not what is
emitted) follows the field's own item, otherwise the derived item has the
empty-string value and unit "B/s"; in every branch the cache entry is
overwritten with `(now, value)`. -/
theorem C1_rate_derivation (cache nr : List ((String × String) × DataPoint))
    (now : Rat) (name key : String) (n : Int)
    (hk : endsW key "Octets" = true) :
    (alookup cache (name, key) = none →
      processField cache nr now name key (.int n) =
        .ok ([⟨camel_to_snake key, .int n, some "bytes"⟩],
             upsert nr (name, key) ⟨now, n⟩)) ∧
    (∀ old, alookup cache (name, key) = some old →
      ((old.data ≤ n ∧ old.time < now) →
        processField cache nr now name key (.int n) =
          .ok ([⟨camel_to_snake key, .int n, some "bytes"⟩,
                ⟨camel_to_snake (key ++ "PS"),
                 .rat (((n - old.data : Int) : Rat) / (now - old.time)),
                 some "B/s"⟩],
               upsert nr (name, key) ⟨now, n⟩)) ∧
      (¬ (old.data ≤ n ∧ old.time < now) →
        processField cache nr now name key (.int n) =
          .ok ([⟨camel_to_snake key, .int n, some "bytes"⟩,
                ⟨camel_to_snake (key ++ "PS"), .str "", some "B/s"⟩],
               upsert nr (name, key) ⟨now, n⟩))) := by
  obtain ⟨hig, hhide⟩ := octets_not_ignored key hk
  have hig2 : key ∉ IGNORE_FIELDS := by simpa using hig
  have hhide2 : key ∉ HIDE_IF_EMPTY := by simpa using hhide
  have huom : assign_uom key (.int n) = (some "bytes", .int n) := by
    simp [assign_uom, hk]
  refine ⟨?_, ?_⟩
  · intro hnone
    simp [processField, hig2, hhide2, huom, hk, hnone]
  · intro old hsome
    refine ⟨?_, ?_⟩
    · intro hcond
      simp [processField, hig2, hhide2, huom, hk, hsome, hcond]
    · intro hcond
      simp [processField, hig2, hhide2, huom, hk, hsome, hcond]

/-- C1 counterexample: at a cached entry (t=0, 500) and a poll at t=10 with
value 1500, a derived rate item named "if_in_octets_ps" is emitted and it
carries unit "B/s", not the claimed "bytes/s". -/
theorem C1_counterexample :
    (processField [(("eth0", "ifInOctets"), ⟨0, 500⟩)] [] 10 "eth0" "ifInOctets"
      (.int 1500)).map
      (fun r => (r.1.map DataItem.name, r.1.map DataItem.unit_of_measurement, r.2)) =
      .ok (["if_in_octets", "if_in_octets_ps"], [some "bytes", some "B/s"],
           [(("eth0", "ifInOctets"), ⟨10, 1500⟩)]) ∧
    (some "B/s" : Option String) ≠ some "bytes/s" :=
  ⟨by decide, by decide⟩

theorem C1_witness :
    endsW "ifInOctets" "Octets" = true ∧
    ((alookup [(("eth0", "ifInOctets"), (⟨0, 500⟩ : DataPoint))]
        ("eth0", "ifInOctets") = none →
      processField [(("eth0", "ifInOctets"), ⟨0, 500⟩)] [] 10 "eth0" "ifInOctets"
        (.int 1500) =
        .ok ([⟨camel_to_snake "ifInOctets", .int 1500, some "bytes"⟩],
             upsert [] ("eth0", "ifInOctets") ⟨10, 1500⟩)) ∧
     (∀ old, alookup [(("eth0", "ifInOctets"), (⟨0, 500⟩ : DataPoint))]
        ("eth0", "ifInOctets") = some old →
       ((old.data ≤ 1500 ∧ old.time < 10) →
         processField [(("eth0", "ifInOctets"), ⟨0, 500⟩)] [] 10 "eth0"
           "ifInOctets" (.int 1500) =
           .ok ([⟨camel_to_snake "ifInOctets", .int 1500, some "bytes"⟩,
                 ⟨camel_to_snake ("ifInOctets" ++ "PS"),
                  .rat (((1500 - old.data : Int) : Rat) / (10 - old.time)),
                  some "B/s"⟩],
                upsert [] ("eth0", "ifInOctets") ⟨10, 1500⟩)) ∧
       (¬ (old.data ≤ 1500 ∧ old.time < 10) →
         processField [(("eth0", "ifInOctets"), ⟨0, 500⟩)] [] 10 "eth0"
           "ifInOctets" (.int 1500) =
           .ok ([⟨camel_to_snake "ifInOctets", .int 1500, some "bytes"⟩,
                 ⟨camel_to_snake ("ifInOctets" ++ "PS"), .str "", some "B/s"⟩],
                upsert [] ("eth0", "ifInOctets") ⟨10, 1500⟩)))) :=
  ⟨by decide,
   C1_rate_derivation [(("eth0", "ifInOctets"), ⟨0, 500⟩)] [] 10 "eth0"
     "ifInOctets" 1500 (by decide)⟩

/-- C7: for every identifier ending in an integer-denoting suffix or equal to
one of the exact integer names, `cast_value` returns `int(rawValue)` when the
raw value parses as a base-10 integer and fails with the malformed-value
condition when it does not; such a failure propagates out of `poll` for the
device (shown on a concrete malformed walk). -/
theorem C7_integer_cast (name v : String) (h : intLike name = true) :
    (∀ n, pyParseInt v = some n → cast_value name v = .ok (.int n)) ∧
    (pyParseInt v = none → cast_value name v = .error .malformedValue) ∧
    poll ⟨[], [], "b", some ⟨"ha", "t", [], []⟩, []⟩
      [⟨"ifDescr", "1", "OCTETSTR", "eth0"⟩, ⟨"ifInOctets", "1", "COUNTER", "12x"⟩]
      0 = .error (.castError .malformedValue) := by
  have hhex : ¬ name ∈ HEX_BYTE_FIELDS := by
    intro hm
    have hn : name = "ifPhysAddress" := by simpa [HEX_BYTE_FIELDS] using hm
    rw [hn] at h
    exact absurd h (by decide)
  refine ⟨?_, ?_, by decide⟩
  · intro n hp
    simp [cast_value, hhex, h, hp]
  · intro hp
    simp [cast_value, hhex, h, hp]

theorem C7_witness :
    intLike "ifInOctets" = true ∧
    ((∀ n, pyParseInt "7_5" = some n →
        cast_value "ifInOctets" "7_5" = .ok (.int n)) ∧
     (pyParseInt "7_5" = none →
        cast_value "ifInOctets" "7_5" = .error .malformedValue) ∧
     poll ⟨[], [], "b", some ⟨"ha", "t", [], []⟩, []⟩
       [⟨"ifDescr", "1", "OCTETSTR", "eth0"⟩, ⟨"ifInOctets", "1", "COUNTER", "12x"⟩]
       0 = .error (.castError .malformedValue)) :=
  ⟨by decide, C7_integer_cast "ifInOctets" "7_5" (by decide)⟩

/-- C10: with no publisher configured, `poll` leaves the connection state —
in particular the rate cache — completely unchanged and queues nothing
(there is no publisher to queue into), even though grouping, filtering and
casting still run: the same walk input with a malformed counter makes the
publisherless `poll` fail, shown on a concrete input. -/
theorem C10_no_publisher_frame (st : ConnState) (walks : List WalkValue)
    (now : Rat) (st' : ConnState) (hpub : st.publisher = none)
    (hok : poll st walks now = .ok st') :
    st' = st ∧
    poll ⟨[], [], "b", none, []⟩
      [⟨"ifDescr", "1", "OCTETSTR", "eth0"⟩, ⟨"ifInOctets", "1", "COUNTER", "12x"⟩]
      0 = .error (.castError .malformedValue) := by
  refine ⟨?_, by decide⟩
  simp only [poll] at hok
  split at hok
  · exact Except.noConfusion hok
  · split at hok
    · exact Except.noConfusion hok
    · simp only [hpub] at hok
      exact (Except.ok.inj hok).symm

theorem C10_witness :
    ((⟨[], [], "b", none, []⟩ : ConnState).publisher = none) ∧
    poll ⟨[], [], "b", none, []⟩ [⟨"ifDescr", "1", "OCTETSTR", "eth0"⟩] 0 =
      .ok ⟨[], [], "b", none, []⟩ ∧
    ((⟨[], [], "b", none, []⟩ : ConnState) = ⟨[], [], "b", none, []⟩ ∧
     poll ⟨[], [], "b", none, []⟩
       [⟨"ifDescr", "1", "OCTETSTR", "eth0"⟩, ⟨"ifInOctets", "1", "COUNTER", "12x"⟩]
       0 = .error (.castError .malformedValue)) :=
  ⟨rfl, by decide,
   C10_no_publisher_frame ⟨[], [], "b", none, []⟩
     [⟨"ifDescr", "1", "OCTETSTR", "eth0"⟩] 0 ⟨[], [], "b", none, []⟩ rfl (by decide)⟩

theorem publishItem_never_ok (pre availT : String) (dev : DeviceData)
    (it : DataItem) (idx : Nat) (dd : List (String × DiscoveryPayload)) :
    (publishItem neverFail pre availT dev it idx dd).ok = true := by
  simp only [publishItem, neverFail]
  split <;> simp

theorem publishItems_never_ok (pre availT : String) (dev : DeviceData) :
    ∀ (items : List DataItem) (idx : Nat) (dd : List (String × DiscoveryPayload)),
    (publishItems neverFail pre availT dev items idx dd).ok = true := by
  intro items
  induction items with
  | nil => intro idx dd; rfl
  | cons it rest ih =>
      intro idx dd
      simp only [publishItems, publishItem_never_ok, if_true]
      exact ih _ _

theorem publishQueue_never_ok (pre availT : String) :
    ∀ (devs : List DeviceData) (idx : Nat) (dd : List (String × DiscoveryPayload)),
    (publishQueue neverFail pre availT devs idx dd).ok = true := by
  intro devs
  induction devs with
  | nil => intro idx dd; rfl
  | cons dev rest ih =>
      intro idx dd
      simp only [publishQueue, publishItems_never_ok, if_true]
      exact ih _ _

/-- C9: `publish` clears the queue exactly when every broker call completed;
a raise anywhere in the loop leaves the entire queue (those already sent
included), since `del self.queue[:]` runs only after the whole loop, and with
no broker failure the queue is empty on return. -/
theorem C9_queue_clearing (fails : Nat → Bool) (st : MQTTState) :
    (publish fails st).state.queue =
      (if (publish fails st).raised then st.queue else []) ∧
    (publish neverFail st).raised = false ∧
    (publish neverFail st).state.queue = [] := by
  refine ⟨?_, ?_, ?_⟩
  · cases hq : (publishQueue fails st.discoveryPre
        (availability_topic st.discoveryPre st.temp_id) st.queue 0
        st.discovery_data).ok <;>
      simp [publish, hq]
  · simp [publish, publishQueue_never_ok]
  · simp [publish, publishQueue_never_ok]

theorem publishItem_fresh_eq (pre availT : String) (dev : DeviceData)
    (it : DataItem) (idx : Nat) (dd : List (String × DiscoveryPayload))
    (h : alookup dd (basename pre dev it) = none) :
    publishItem neverFail pre availT dev it idx dd =
      ⟨idx + 2,
       upsert dd (basename pre dev it)
         (mkDiscovery (basename pre dev it) availT dev it),
       [⟨basename pre dev it ++ "/config",
         .json (mkDiscovery (basename pre dev it) availT dev it), true⟩,
        ⟨basename pre dev it ++ "/state", .text (pyStr it.value), false⟩],
       true⟩ := by
  simp [publishItem, h, neverFail]

theorem publishItem_stale_eq (pre availT : String) (dev : DeviceData)
    (it : DataItem) (idx : Nat) (dd : List (String × DiscoveryPayload))
    (p : DiscoveryPayload) (h : alookup dd (basename pre dev it) = some p)
    (hne : p ≠ mkDiscovery (basename pre dev it) availT dev it) :
    publishItem neverFail pre availT dev it idx dd =
      ⟨idx + 2,
       upsert dd (basename pre dev it)
         (mkDiscovery (basename pre dev it) availT dev it),
       [⟨basename pre dev it ++ "/config",
         .json (mkDiscovery (basename pre dev it) availT dev it), true⟩,
        ⟨basename pre dev it ++ "/state", .text (pyStr it.value), false⟩],
       true⟩ := by
  simp [publishItem, h, hne, neverFail]

theorem publishItem_cached_eq (pre availT : String) (dev : DeviceData)
    (it : DataItem) (idx : Nat) (dd : List (String × DiscoveryPayload))
    (h : alookup dd (basename pre dev it) =
      some (mkDiscovery (basename pre dev it) availT dev it)) :
    publishItem neverFail pre availT dev it idx dd =
      ⟨idx + 1, dd,
       [⟨basename pre dev it ++ "/state", .text (pyStr it.value), false⟩],
       true⟩ := by
  simp [publishItem, h, neverFail]

/-- A run of the inner publish loop over items none of whose basenames is in
the discovery cache: each item gets one config and one state call, and the
cache afterwards maps each basename to its payload, other keys untouched. -/
theorem publishItems_fresh (pre availT : String) (dev : DeviceData) :
    ∀ (items : List DataItem) (idx : Nat) (dd : List (String × DiscoveryPayload)),
    (∀ it ∈ items, alookup dd (basename pre dev it) = none) →
    ((items.map (fun it => basename pre dev it)).Nodup) →
    (publishItems neverFail pre availT dev items idx dd).calls =
        itemCalls pre availT dev items ∧
    (∀ it ∈ items,
        alookup (publishItems neverFail pre availT dev items idx dd).dd
            (basename pre dev it) =
          some (mkDiscovery (basename pre dev it) availT dev it)) ∧
    (∀ k, (∀ it ∈ items, k ≠ basename pre dev it) →
        alookup (publishItems neverFail pre availT dev items idx dd).dd k =
          alookup dd k) := by
  intro items
  induction items with
  | nil =>
      intro idx dd h hnd
      exact ⟨rfl, by simp, fun k _ => rfl⟩
  | cons it rest ih =>
      intro idx dd h hnd
      rw [List.map_cons, List.nodup_cons] at hnd
      have hbn : alookup dd (basename pre dev it) = none :=
        h it (List.mem_cons_self it rest)
      have hstep := publishItem_fresh_eq pre availT dev it idx dd hbn
      have hrest : ∀ x ∈ rest,
          alookup (upsert dd (basename pre dev it)
              (mkDiscovery (basename pre dev it) availT dev it))
            (basename pre dev x) = none := by
        intro x hx
        rw [alookup_upsert]
        have hne : basename pre dev it ≠ basename pre dev x := by
          intro he
          exact hnd.1 (he ▸ List.mem_map_of_mem (fun y => basename pre dev y) hx)
        simp only [hne, if_false]
        exact h x (List.mem_cons_of_mem it hx)
      obtain ⟨ihc, ihd, ihk⟩ := ih (idx + 2)
        (upsert dd (basename pre dev it)
          (mkDiscovery (basename pre dev it) availT dev it)) hrest hnd.2
      have hrec : publishItems neverFail pre availT dev (it :: rest) idx dd =
          ⟨(publishItems neverFail pre availT dev rest (idx + 2)
              (upsert dd (basename pre dev it)
                (mkDiscovery (basename pre dev it) availT dev it))).idx,
           (publishItems neverFail pre availT dev rest (idx + 2)
              (upsert dd (basename pre dev it)
                (mkDiscovery (basename pre dev it) availT dev it))).dd,
           ⟨basename pre dev it ++ "/config",
             .json (mkDiscovery (basename pre dev it) availT dev it), true⟩ ::
           ⟨basename pre dev it ++ "/state", .text (pyStr it.value), false⟩ ::
           (publishItems neverFail pre availT dev rest (idx + 2)
              (upsert dd (basename pre dev it)
                (mkDiscovery (basename pre dev it) availT dev it))).calls,
           (publishItems neverFail pre availT dev rest (idx + 2)
              (upsert dd (basename pre dev it)
                (mkDiscovery (basename pre dev it) availT dev it))).ok⟩ := by
        simp [publishItems, hstep]
      refine ⟨?_, ?_, ?_⟩
      · rw [hrec]
        simp only [itemCalls]
        rw [ihc]
      · intro x hx
        rw [hrec]
        rcases List.mem_cons.mp hx with he | hm
        · subst he
          have hnot : ∀ y ∈ rest, basename pre dev x ≠ basename pre dev y := by
            intro y hy he
            exact hnd.1 (he ▸ List.mem_map_of_mem (fun z => basename pre dev z) hy)
          rw [ihk (basename pre dev x) hnot, alookup_upsert]
          simp
        · exact ihd x hm
      · intro k hk
        rw [hrec]
        have hkr : ∀ x ∈ rest, k ≠ basename pre dev x :=
          fun x hx => hk x (List.mem_cons_of_mem it hx)
        rw [ihk k hkr, alookup_upsert]
        have : basename pre dev it ≠ k :=
          fun he => hk it (List.mem_cons_self it rest) he.symm
        simp [this]

/-- A run of the inner publish loop over items whose exact payloads are all
cached: only state calls, cache unchanged. -/
theorem publishItems_cached (pre availT : String) (dev : DeviceData) :
    ∀ (items : List DataItem) (idx : Nat) (dd : List (String × DiscoveryPayload)),
    (∀ it ∈ items, alookup dd (basename pre dev it) =
        some (mkDiscovery (basename pre dev it) availT dev it)) →
    publishItems neverFail pre availT dev items idx dd =
      ⟨idx + items.length, dd,
       items.map (fun it =>
         ⟨basename pre dev it ++ "/state", .text (pyStr it.value), false⟩),
       true⟩ := by
  intro items
  induction items with
  | nil => intro idx dd h; simp [publishItems]
  | cons it rest ih =>
      intro idx dd h
      have hstep := publishItem_cached_eq pre availT dev it idx dd
        (h it (List.mem_cons_self it rest))
      have hrest : ∀ x ∈ rest, alookup dd (basename pre dev x) =
          some (mkDiscovery (basename pre dev x) availT dev x) :=
        fun x hx => h x (List.mem_cons_of_mem it hx)
      simp only [publishItems, hstep, ih (idx + 1) dd hrest]
      simp [List.length_cons]
      omega

/-- The exact broker-call sequence of publishing the same snapshot twice in a
row from a fresh publisher: per-item config+state on the first run, state only
on the second. -/
theorem doubleCalls_spec (pre tid : String) (dev : DeviceData)
    (hnd : (dev.items.map (fun it => basename pre dev it)).Nodup) :
    doubleCalls pre tid dev =
      itemCalls pre (availability_topic pre tid) dev dev.items ++
      dev.items.map (fun it =>
        ⟨basename pre dev it ++ "/state", .text (pyStr it.value), false⟩) := by
  have hfresh : ∀ it ∈ dev.items,
      alookup ([] : List (String × DiscoveryPayload)) (basename pre dev it) =
        none := fun _ _ => rfl
  obtain ⟨h1c, h1d, _⟩ := publishItems_fresh pre (availability_topic pre tid)
    dev dev.items 0 [] hfresh hnd
  have h2 := publishItems_cached pre (availability_topic pre tid) dev dev.items 0
    (publishItems neverFail pre (availability_topic pre tid) dev dev.items 0 []).dd
    h1d
  simp [doubleCalls, publish, publishQueue, publishItems_never_ok, h1c, h2]

theorem countTopic_cons (c : PublishCall) (calls : List PublishCall) (t : String) :
    countTopic (c :: calls) t = (if c.topic = t then 1 else 0) + countTopic calls t := by
  by_cases h : c.topic = t <;>
    simp [countTopic, List.filter_cons, h, Nat.add_comm]

theorem countTopic_append (a b : List PublishCall) (t : String) :
    countTopic (a ++ b) t = countTopic a t + countTopic b t := by
  simp [countTopic, List.filter_append]

theorem cfg_ne_state (A B : String) : A ++ "/config" ≠ B ++ "/state" := by
  have hx : ("/config" : String).data.reverse.head? = some 'g' := by decide
  have hy : ("/state" : String).data.reverse.head? = some 'e' := by decide
  exact str_append_ne_of_last hx hy (by decide)

theorem state_ne_cfg (A B : String) : A ++ "/state" ≠ B ++ "/config" := by
  have hx : ("/state" : String).data.reverse.head? = some 'e' := by decide
  have hy : ("/config" : String).data.reverse.head? = some 'g' := by decide
  exact str_append_ne_of_last hx hy (by decide)

theorem countTopic_itemCalls_zero (pre availT : String) (dev : DeviceData) :
    ∀ (items : List DataItem) (B : String),
    (∀ it ∈ items, basename pre dev it ≠ B) →
    countTopic (itemCalls pre availT dev items) (B ++ "/config") = 0 ∧
    countTopic (itemCalls pre availT dev items) (B ++ "/state") = 0 := by
  intro items
  induction items with
  | nil => intro B h; exact ⟨rfl, rfl⟩
  | cons it rest ih =>
      intro B h
      have hne := h it (List.mem_cons_self it rest)
      obtain ⟨ih1, ih2⟩ := ih B (fun x hx => h x (List.mem_cons_of_mem it hx))
      constructor
      · have hc1 : basename pre dev it ++ "/config" ≠ B ++ "/config" :=
          fun he => hne (str_append_cancel_right he)
        have hc2 : basename pre dev it ++ "/state" ≠ B ++ "/config" :=
          state_ne_cfg (basename pre dev it) B
        simp [itemCalls, countTopic_cons, hc1, hc2, ih1]
      · have hc1 : basename pre dev it ++ "/config" ≠ B ++ "/state" :=
          cfg_ne_state (basename pre dev it) B
        have hc2 : basename pre dev it ++ "/state" ≠ B ++ "/state" :=
          fun he => hne (str_append_cancel_right he)
        simp [itemCalls, countTopic_cons, hc1, hc2, ih2]

theorem countTopic_itemCalls_pos (pre availT : String) (dev : DeviceData) :
    ∀ (items : List DataItem) (it0 : DataItem), it0 ∈ items →
    (items.map (fun it => basename pre dev it)).Nodup →
    countTopic (itemCalls pre availT dev items)
      (basename pre dev it0 ++ "/config") = 1 ∧
    countTopic (itemCalls pre availT dev items)
      (basename pre dev it0 ++ "/state") = 1 := by
  intro items
  induction items with
  | nil => intro it0 h; cases h
  | cons it rest ih =>
      intro it0 h0 hnd
      rw [List.map_cons, List.nodup_cons] at hnd
      rcases List.mem_cons.mp h0 with he | hm
      · subst he
        have hz := countTopic_itemCalls_zero pre availT dev rest
          (basename pre dev it0)
          (by
            intro x hx he
            exact hnd.1 (he ▸ List.mem_map_of_mem (fun z => basename pre dev z) hx))
        constructor
        · have hc2 : basename pre dev it0 ++ "/state" ≠
              basename pre dev it0 ++ "/config" :=
            state_ne_cfg (basename pre dev it0) (basename pre dev it0)
          simp [itemCalls, countTopic_cons, hc2, hz.1]
        · have hc1 : basename pre dev it0 ++ "/config" ≠
              basename pre dev it0 ++ "/state" :=
            cfg_ne_state (basename pre dev it0) (basename pre dev it0)
          simp [itemCalls, countTopic_cons, hc1, hz.2]
      · have hne : basename pre dev it ≠ basename pre dev it0 := by
          intro he
          exact hnd.1 (he ▸ List.mem_map_of_mem (fun z => basename pre dev z) hm)
        obtain ⟨ih1, ih2⟩ := ih it0 hm hnd.2
        constructor
        · have hc1 : basename pre dev it ++ "/config" ≠
              basename pre dev it0 ++ "/config" :=
            fun he => hne (str_append_cancel_right he)
          have hc2 : basename pre dev it ++ "/state" ≠
              basename pre dev it0 ++ "/config" :=
            state_ne_cfg (basename pre dev it) (basename pre dev it0)
          simp [itemCalls, countTopic_cons, hc1, hc2, ih1]
        · have hc1 : basename pre dev it ++ "/config" ≠
              basename pre dev it0 ++ "/state" :=
            cfg_ne_state (basename pre dev it) (basename pre dev it0)
          have hc2 : basename pre dev it ++ "/state" ≠
              basename pre dev it0 ++ "/state" :=
            fun he => hne (str_append_cancel_right he)
          simp [itemCalls, countTopic_cons, hc1, hc2, ih2]

theorem countTopic_mapState_cfg (pre : String) (dev : DeviceData) :
    ∀ (items : List DataItem) (B : String),
    countTopic (items.map (fun it =>
      (⟨basename pre dev it ++ "/state", .text (pyStr it.value), false⟩ :
        PublishCall))) (B ++ "/config") = 0 := by
  intro items
  induction items with
  | nil => intro B; rfl
  | cons it rest ih =>
      intro B
      have hc : basename pre dev it ++ "/state" ≠ B ++ "/config" :=
        state_ne_cfg (basename pre dev it) B
      simp [countTopic_cons, hc, ih B]

theorem countTopic_mapState_zero_state (pre : String) (dev : DeviceData) :
    ∀ (items : List DataItem) (B : String),
    (∀ x ∈ items, basename pre dev x ≠ B) →
    countTopic (items.map (fun it =>
      (⟨basename pre dev it ++ "/state", .text (pyStr it.value), false⟩ :
        PublishCall))) (B ++ "/state") = 0 := by
  intro items
  induction items with
  | nil => intro B _; rfl
  | cons y ys ihy =>
      intro B hB
      have hcy : basename pre dev y ++ "/state" ≠ B ++ "/state" :=
        fun he => hB y (List.mem_cons_self y ys) (str_append_cancel_right he)
      simp [countTopic_cons, hcy, ihy B (fun x hx => hB x (List.mem_cons_of_mem y hx))]

theorem countTopic_mapState_state (pre : String) (dev : DeviceData) :
    ∀ (items : List DataItem) (it0 : DataItem), it0 ∈ items →
    (items.map (fun it => basename pre dev it)).Nodup →
    countTopic (items.map (fun it =>
      (⟨basename pre dev it ++ "/state", .text (pyStr it.value), false⟩ :
        PublishCall))) (basename pre dev it0 ++ "/state") = 1 := by
  intro items
  induction items with
  | nil => intro it0 h; cases h
  | cons it rest ih =>
      intro it0 h0 hnd
      rw [List.map_cons, List.nodup_cons] at hnd
      rcases List.mem_cons.mp h0 with he | hm
      · subst he
        rw [List.map_cons, countTopic_cons]
        simp only [if_pos rfl]
        rw [countTopic_mapState_zero_state pre dev rest (basename pre dev it0)
          (by
            intro x hx he
            exact hnd.1 (he ▸ List.mem_map_of_mem (fun z => basename pre dev z) hx))]
        simp
      · have hne : basename pre dev it ≠ basename pre dev it0 := by
          intro he
          exact hnd.1 (he ▸ List.mem_map_of_mem (fun z => basename pre dev z) hm)
        have hc : basename pre dev it ++ "/state" ≠
            basename pre dev it0 ++ "/state" :=
          fun he => hne (str_append_cancel_right he)
        simp [countTopic_cons, hc, ih it0 hm hnd.2]

/-- C2: for every `DataItem` processed by `publish`, the discovery payload is
published retained on `basename/config` exactly when the basename was never
published or the newly built payload differs from the cached one, while the
state message (`str` of the value, not retained, on `basename/state`) is
published unconditionally; hence queueing and publishing the same snapshot
twice in a row from a fresh publisher yields exactly one config publish and
two state publishes per item (items individuated by their basenames). -/
theorem C2_discovery_idempotence (pre tid : String) (dev : DeviceData)
    (hnd : (dev.items.map (fun it => basename pre dev it)).Nodup) :
    (∀ (availT : String) (it : DataItem) (idx : Nat)
        (dd : List (String × DiscoveryPayload)),
      ((alookup dd (basename pre dev it) = none ∨
        (∃ p, alookup dd (basename pre dev it) = some p ∧
          p ≠ mkDiscovery (basename pre dev it) availT dev it)) →
        publishItem neverFail pre availT dev it idx dd =
          ⟨idx + 2,
           upsert dd (basename pre dev it)
             (mkDiscovery (basename pre dev it) availT dev it),
           [⟨basename pre dev it ++ "/config",
             .json (mkDiscovery (basename pre dev it) availT dev it), true⟩,
            ⟨basename pre dev it ++ "/state", .text (pyStr it.value), false⟩],
           true⟩) ∧
      (alookup dd (basename pre dev it) =
          some (mkDiscovery (basename pre dev it) availT dev it) →
        publishItem neverFail pre availT dev it idx dd =
          ⟨idx + 1, dd,
           [⟨basename pre dev it ++ "/state", .text (pyStr it.value), false⟩],
           true⟩)) ∧
    (∀ it ∈ dev.items,
      countTopic (doubleCalls pre tid dev)
        (basename pre dev it ++ "/config") = 1 ∧
      countTopic (doubleCalls pre tid dev)
        (basename pre dev it ++ "/state") = 2) := by
  constructor
  · intro availT it idx dd
    constructor
    · intro hcase
      rcases hcase with hnone | ⟨p, hp, hne⟩
      · exact publishItem_fresh_eq pre availT dev it idx dd hnone
      · exact publishItem_stale_eq pre availT dev it idx dd p hp hne
    · intro hcached
      exact publishItem_cached_eq pre availT dev it idx dd hcached
  · intro it hm
    rw [doubleCalls_spec pre tid dev hnd]
    rw [countTopic_append, countTopic_append]
    obtain ⟨hp1, hp2⟩ := countTopic_itemCalls_pos pre (availability_topic pre tid)
      dev dev.items it hm hnd
    rw [hp1, hp2, countTopic_mapState_cfg pre dev dev.items (basename pre dev it),
      countTopic_mapState_state pre dev dev.items it hm hnd]
    omega

theorem C2_witness :
    ((((⟨"eth0", "u0", true,
        [⟨"if_in_octets", .int 5, some "bytes"⟩, ⟨"if_descr", .str "eth0", none⟩]⟩ :
        DeviceData).items.map
      (fun it => basename "ha" ⟨"eth0", "u0", true,
        [⟨"if_in_octets", .int 5, some "bytes"⟩, ⟨"if_descr", .str "eth0", none⟩]⟩ it)).Nodup) ∧
     (⟨"if_in_octets", .int 5, some "bytes"⟩ : DataItem) ∈
       (⟨"eth0", "u0", true,
        [⟨"if_in_octets", .int 5, some "bytes"⟩, ⟨"if_descr", .str "eth0", none⟩]⟩ :
        DeviceData).items) ∧
    (countTopic (doubleCalls "ha" "t0"
        ⟨"eth0", "u0", true,
         [⟨"if_in_octets", .int 5, some "bytes"⟩, ⟨"if_descr", .str "eth0", none⟩]⟩)
       (basename "ha"
         ⟨"eth0", "u0", true,
          [⟨"if_in_octets", .int 5, some "bytes"⟩, ⟨"if_descr", .str "eth0", none⟩]⟩
         ⟨"if_in_octets", .int 5, some "bytes"⟩ ++ "/config") = 1 ∧
     countTopic (doubleCalls "ha" "t0"
        ⟨"eth0", "u0", true,
         [⟨"if_in_octets", .int 5, some "bytes"⟩, ⟨"if_descr", .str "eth0", none⟩]⟩)
       (basename "ha"
         ⟨"eth0", "u0", true,
          [⟨"if_in_octets", .int 5, some "bytes"⟩, ⟨"if_descr", .str "eth0", none⟩]⟩
         ⟨"if_in_octets", .int 5, some "bytes"⟩ ++ "/state") = 2) :=
  ⟨⟨by decide, by decide⟩,
   (C2_discovery_idempotence "ha" "t0"
      ⟨"eth0", "u0", true,
       [⟨"if_in_octets", .int 5, some "bytes"⟩, ⟨"if_descr", .str "eth0", none⟩]⟩
      (by decide)).2
     ⟨"if_in_octets", .int 5, some "bytes"⟩ (by decide)⟩

theorem C8_witness :
    HEX_BYTE_FIELDS.contains "ifPhysAddress" = true ∧
    ("\x00\x10").data.all (fun c => c.toNat ≤ 255) = true ∧
    (cast_value "ifPhysAddress" "\x00\x10" =
        .ok (.str (String.mk (hexOfChars ("\x00\x10").data))) ∧
     (String.mk (hexOfChars ("\x00\x10").data)).length = 2 * ("\x00\x10").length ∧
     (hexOfChars ("\x00\x10").data).all isHexLower = true) :=
  ⟨by decide, by decide,
   C8_hex_cast "ifPhysAddress" "\x00\x10" (by decide) (by decide)⟩

end SnmpIfstatsMqtt
